import Mathlib

/-!
Verification of the kodi_panel repository (kodi_panel.py and
kodi_panel_fb.py): a shallow embedding of the rendering core —
text truncation, progress calculation, progress-bar drawing,
artwork fetching/caching/resizing, the audio display-mode state
machine, and the per-cycle display update — together with theorems
settling the specification's claims about them.

Modelling conventions:
* Python strings are Lean `String`s; character-level loops work on
  `List Char` (`String.data`).
* Python floats are modelled as exact rationals (`ℚ`).
* Fallible operations return `Option`; `none` models an uncaught
  Python exception escaping the function.
* External I/O (HTTP fetches, the filesystem, image decoding and
  image dimensions) is abstracted into an environment of boolean /
  dimension oracles keyed by path, so that the control flow of the
  source is reproduced exactly while the transport layer stays
  abstract, as the spec's §1 prescribes.
-/

namespace KodiPanel

/-! ### Text truncation (kodi_panel.py, truncate_text)

`frameSize = (320, 240)`; the width bound used by `truncate_text`
is `frameSize[0] - 20`.  The font-dependent text measure
`pil_draw.textsize` is abstracted as a function `ts : List Char → Nat`.
-/

/-- Width bound used by `truncate_text`: `frameSize[0] - 20`. -/
def maxTextWidth : Nat := 320 - 20

/-- Truncation loop of `truncate_text`, run on the REVERSED character
list so that dropping the last character of the text is structural
recursion on the head.  Mirrors
`while t_width > (frameSize[0] - 20): truncating = 1; new_text = new_text[:-1]`.
Returns the surviving text (in original order) and the `truncating` flag.
On an empty string whose measured width still exceeds the bound the
Python loop would not terminate; that branch is unreachable for any
measure with `ts [] ≤ maxTextWidth`, which the theorems assume. -/
def truncRev (ts : List Char → Nat) : List Char → List Char × Bool
  | [] => if ts [] ≤ maxTextWidth then ([], false) else ([], true)
  | c :: rest =>
      if ts ((c :: rest).reverse) ≤ maxTextWidth then ((c :: rest).reverse, false)
      else ((truncRev ts rest).1, true)

/-- Shallow embedding of `truncate_text` (kodi_panel.py lines 240-250):
the characters actually drawn by `pil_draw.text` at the end of the
function.  If any character was dropped, a single ellipsis U+2026 is
appended. -/
def truncate_text (ts : List Char → Nat) (text : List Char) : List Char :=
  let r := truncRev ts text.reverse
  if r.2 then r.1 ++ ['…'] else r.1

/-! ### Progress calculation (kodi_panel_fb.py, calc_progress_custom) -/

/-- Python `int(x)` restricted to the inputs the panel feeds it:
non-empty strings of decimal digits.  `none` models `int` raising
`ValueError` (which `calc_progress_custom` does not catch). -/
def pyInt (cs : List Char) : Option Int :=
  if cs ≠ [] ∧ cs.all (fun c => c.isDigit) then
    some ((cs.foldl (fun a c => 10 * a + (c.toNat - 48)) 0 : Nat) : Int)
  else none

/-- `str.split(':')` on a character list. -/
def splitCols : List Char → List (List Char)
  | [] => [[]]
  | c :: rest =>
      if c = ':' then [] :: splitCols rest
      else
        match splitCols rest with
        | [] => [[c]]
        | g :: gs => (c :: g) :: gs

/-- Base-60 positional value of a list of components given
rightmost-first (seconds, minutes, hours), mirroring
`sum(int(x) * 60 ** i for i, x in enumerate(reversed(s.split(':'))))`. -/
def base60sum : List Int → Int
  | [] => 0
  | n :: r => n + 60 * base60sum r

/-- Parse a colon-separated time-like string as a base-60 positional
number, as `calc_progress_custom` does.  `none` models `int` raising. -/
def parse_base60 (s : String) : Option Int :=
  ((splitCols s.data).reverse.mapM pyInt).map base60sum

/-- Value-side logic of `calc_progress_custom` after both strings have
parsed: the `V_PVR` offset subtraction followed by the sign/compare
cascade (kodi_panel_fb.py lines 199-214). -/
def calc_progress_values_logic (cur_secs total_secs : Int) (layout_name : String) : ℚ :=
  let cur_secs := if layout_name = "V_PVR" then cur_secs - 600 else cur_secs
  let total_secs := if layout_name = "V_PVR" then total_secs - 1200 else total_secs
  if 0 ≤ cur_secs ∧ 0 < total_secs then
    if total_secs ≤ cur_secs then 1
    else (cur_secs : ℚ) / (total_secs : ℚ)
  else -1

/-- Shallow embedding of `calc_progress_custom` (kodi_panel_fb.py lines
182-214).  `some q` is a returned float (exact rational model), `none`
an escaping `ValueError` from `int`.  The hide sentinel is `-1`. -/
def calc_progress_custom (time_str duration_str layout_name : String) : Option ℚ :=
  if time_str = "" ∨ duration_str = "" then some (-1)
  else if ¬ (1 ≤ time_str.data.count ':' ∧ time_str.data.count ':' ≤ 2 ∧
             1 ≤ duration_str.data.count ':' ∧ duration_str.data.count ':' ≤ 2) then
    some (-1)
  else
    match parse_base60 time_str, parse_base60 duration_str with
    | some cur, some total => some (calc_progress_values_logic cur total layout_name)
    | _, _ => none

/-! ### Progress bar drawing (kodi_panel.py, progress_bar) -/

/-- Axis-aligned rectangle as passed to `pil_draw.rectangle`:
`(x1, y1, x2, y2)` in exact rational coordinates. -/
structure Rect where
  x1 : ℚ
  y1 : ℚ
  x2 : ℚ
  y2 : ℚ
deriving DecidableEq

/-- Fraction adjustment done by `progress_bar` before drawing the
foreground: `if progress <= 0: progress = 0.01` then
`if progress > 1: progress = 1` (kodi_panel.py lines 259-262). -/
def clamp_progress (progress : ℚ) : ℚ :=
  let p := if progress ≤ 0 then 1 / 100 else progress
  if 1 < p then 1 else p

/-- Shallow embedding of `progress_bar` (kodi_panel.py lines 256-269):
the list of rectangles drawn, in drawing order (background first). -/
def progress_bar (x y w h : ℚ) (progress : ℚ) (vertical : Bool) : List Rect :=
  let p := clamp_progress progress
  let bg : Rect := ⟨x, y, x + w, y + h⟩
  let fg : Rect :=
    if vertical then ⟨x, y + h - h * p, x + w, y + h⟩
    else ⟨x, y, x + w * p, y + h⟩
  [bg, fg]

/-! ### Artwork retrieval and resizing (kodi_panel.py, get_artwork) -/

/-- Boolean test that string `s` starts with `p`, written over the
character lists so that it evaluates inside the kernel. -/
def str_starts_with (s p : String) : Bool := s.data.take p.data.length = p.data

/-- The `special_re` AirPlay pattern
`^special://temp/(airtunes_album_thumb\.(png|jpg))` of kodi_panel.py
line 66: a prefix match (Python `re.match`), returning the captured
file name.  The two alternatives are tried png-first, as the regex
alternation does. -/
def special_match (s : String) : Option String :=
  if str_starts_with s "special://temp/airtunes_album_thumb.png" then
    some "airtunes_album_thumb.png"
  else if str_starts_with s "special://temp/airtunes_album_thumb.jpg" then
    some "airtunes_album_thumb.jpg"
  else none

/-- Path constants of kodi_panel.py lines 62-63. -/
def default_thumb : String := "./images/music_icon.png"

/-- Default AirPlay thumbnail path (kodi_panel.py line 63). -/
def default_airplay : String := "./images/airplay_thumb.png"

/-- Environment of external effects used by `get_artwork`: HTTP
success and image decodability per cover path, availability of a
`Files.PrepareDownload` path, local file existence, and the pixel
dimensions of the image found at a path.  Local `Image.open` of the
shipped default images is assumed to succeed. -/
structure ArtEnv where
  status200 : String → Bool
  decodeOK : String → Bool
  prepareOK : String → Bool
  fileExists : String → Bool
  dims : String → Nat × Nat

/-- Image values produced by `get_artwork`: a decoded HTTP fetch, a
local `Image.open`, or a resized/cropped derivative with its final
pixel dimensions. -/
inductive Img where
  | fetched (path : String)
  | opened (path : String)
  | resized (base : Img) (w h : Nat)
deriving DecidableEq

/-- Pixel dimensions of an image in a given environment. -/
def img_dims (env : ArtEnv) : Img → Nat × Nat
  | .fetched p => env.dims p
  | .opened p => env.dims p
  | .resized _ w h => (w, h)

/-- Dimensions passed to `cover.resize` by `get_artwork` (kodi_panel.py
lines 356-359): `shrink = thumb_size / orig_h` and
`new_width = int(orig_h * shrink)` — note the source multiplies the
original HEIGHT (not width) by the shrink factor.  Floats are modelled
as exact rationals with `int` as floor. -/
def resize_target (orig : Nat × Nat) (thumb_size : Nat) : Nat × Nat :=
  let shrink : ℚ := (thumb_size : ℚ) / (orig.2 : ℚ)
  ((⌊(orig.2 : ℚ) * shrink⌋).toNat, thumb_size)

/-- Modelled from the spec: "resize preserving aspect ratio to a target
height" — the new width scales the original WIDTH by
`thumb_size / orig_h`.  Stated only to exhibit the divergence between
the source's arithmetic and its documented intent. -/
def resize_target_spec (orig : Nat × Nat) (thumb_size : Nat) : Nat × Nat :=
  ((⌊(orig.1 : ℚ) * ((thumb_size : ℚ) / (orig.2 : ℚ))⌋).toNat, thumb_size)

/-- Resize-then-maybe-crop step of `get_artwork` (kodi_panel.py lines
355-365): resize to `resize_target`; if the resulting width exceeds
`thumb_size`, crop to `(0, 0, 140, thumb_size)` (the crop width is the
hard-coded constant 140). -/
def do_resize (env : ArtEnv) (cover : Img) (thumb_size : Nat) : Img :=
  let tgt := resize_target (img_dims env cover) thumb_size
  if thumb_size < tgt.1 then .resized cover 140 thumb_size
  else .resized cover tgt.1 tgt.2

/-- Shallow embedding of `get_artwork` (kodi_panel.py lines 285-370).
Arguments: environment, module-global `last_image_path`, the
snapshot's `MusicPlayer.Cover` value, `prev_image`, `thumb_size`.
Result `some (ret, last', fetches)`: the returned image, the new
`last_image_path`, and the number of `requests.get` image fetches
performed; `none` models an uncaught exception (the `NameError` on
`image_url` when `Files.PrepareDownload` yields no path). -/
def get_artwork (env : ArtEnv) (last_image_path : Option String)
    (cover_path : String) (prev_image : Option Img) (thumb_size : Nat) :
    Option (Option Img × Option String × Nat) :=
  if cover_path ≠ "" ∧ cover_path ≠ "DefaultAlbumCover.png" ∧
     (special_match cover_path).isNone then
    if last_image_path = some cover_path ∧ prev_image.isSome then
      -- cache hit: fall through and return prev_image, nothing fetched
      some (prev_image, last_image_path, 0)
    else
      if str_starts_with cover_path "http://" = false ∧
         env.prepareOK cover_path = false then
        none
      else if env.status200 cover_path then
        if env.decodeOK cover_path then
          some (some (do_resize env (.fetched cover_path) thumb_size),
                some cover_path, 1)
        else
          -- decode failure: fall back to the default thumbnail, keep
          -- the failing path recorded in last_image_path, no resize
          some (some (.opened default_thumb), some cover_path, 1)
      else
        -- non-200 status: image_set stays False, so the not-image_set
        -- block runs and records the default thumbnail path
        some (some (.opened default_thumb), some default_thumb, 1)
  else
    match special_match cover_path with
    | some fname =>
        let airplay_thumb := "/storage/.kodi/temp/" ++ fname
        if env.fileExists airplay_thumb then
          some (some (do_resize env (.opened airplay_thumb) thumb_size),
                some airplay_thumb, 0)
        else
          some (some (.opened default_airplay), some default_airplay, 0)
    | none => some (some (.opened default_thumb), some default_thumb, 0)

/-! ### Audio display-mode state machine (kodi_panel.py, ADisplay) -/

/-- The audio display modes of kodi_panel.py lines 112-115, in
enumeration order. -/
inductive ADisplay where
  | DEFAULT
  | FULLSCREEN
  | FULL_PROG
deriving DecidableEq

/-- Enumeration order `list(cls)` of the `ADisplay` members. -/
def ADisplay.members : List ADisplay := [.DEFAULT, .FULLSCREEN, .FULL_PROG]

/-- Shallow embedding of `ADisplay.next` (kodi_panel.py lines 117-123):
`index = members.index(self) + 1; if index >= len(members): index = 0;
return members[index]`. -/
def ADisplay.next (m : ADisplay) : ADisplay :=
  let index := ADisplay.members.indexOf m + 1
  let index := if ADisplay.members.length ≤ index then 0 else index
  ADisplay.members.getD index ADisplay.DEFAULT

/-! ### Codec lookup table and the DEFAULT layout fields -/

/-- The `codec_name` audio/video codec lookup table of kodi_panel.py
lines 89-106, as an association list in source order. -/
def codec_name : List (String × String) :=
  [ ("ac3", "DD"),
    ("eac3", "DD"),
    ("dtshd_ma", "DTS-MA"),
    ("dca", "DTS"),
    ("truehd", "DD-HD"),
    ("wmapro", "WMA"),
    ("mp3float", "MP3"),
    ("flac", "FLAC"),
    ("alac", "ALAC"),
    ("vorbis", "OggV"),
    ("aac", "AAC"),
    ("pcm_s16be", "PCM"),
    ("mp2", "MP2"),
    ("pcm_u8", "PCM"),
    ("BXA", "AirPlay"),
    ("dsd_lsbf_planar", "DSD") ]

/-- Dictionary lookup `codec_name[c]` guarded by
`c in codec_name.keys()`. -/
def codec_lookup (c : String) : Option String :=
  (codec_name.find? (fun p => p.1 = c)).map (fun p => p.2)

/-- One entry of the `LAYOUT[ADisplay.DEFAULT]["fields"]` list
(kodi_panel.py lines 145-160): name, position, font, fill, optional
label (text, position, fill), truncation flag. -/
structure FieldSpec where
  name : String
  pos : Nat × Nat
  font : String
  fill : String
  label : Option (String × (Nat × Nat) × String)
  trunc : Bool
deriving DecidableEq

/-- The `fields` list of the DEFAULT audio layout, in source order. -/
def default_fields : List FieldSpec :=
  [ ⟨"MusicPlayer.Time", (148, 20), "font7S", "SpringGreen", none, false⟩,
    ⟨"MusicPlayer.TrackNumber", (148, 73), "font7S", "SpringGreen",
      some ("Track", (148, 60), "white"), false⟩,
    ⟨"MusicPlayer.Duration", (230, 60), "font_tiny", "white", none, false⟩,
    ⟨"codec", (230, 74), "font_tiny", "white", none, false⟩,
    ⟨"MusicPlayer.Genre", (230, 88), "font_tiny", "white", none, true⟩,
    ⟨"MusicPlayer.Year", (230, 102), "font_tiny", "white", none, false⟩,
    ⟨"MusicPlayer.Title", (5, 152), "font_main", "white", none, true⟩,
    ⟨"MusicPlayer.Album", (5, 180), "font_sm", "white", none, true⟩,
    ⟨"artist", (5, 205), "font_sm", "yellow", none, true⟩ ]

/-! ### Field rendering (kodi_panel.py, audio_screens field loop) -/

/-- Drawing operations recorded on the bitmap, in drawing order.
`truncText` records an invocation of `truncate_text` with the
pre-truncation string (the drawn characters are
`truncate_text ts s.data`); `text` is a plain `draw.text`. -/
inductive DrawOp where
  | text (pos : Nat × Nat) (s : String) (fill : String)
  | truncText (pos : Nat × Nat) (s : String) (fill : String)
  | pasteImage (img : Img) (px py : Int)
  | progBar (x y w h : Nat) (prog : ℚ) (vertical : Bool)
deriving DecidableEq

/-- Position of a text-drawing operation, `none` for non-text ops. -/
def DrawOp.textPos : DrawOp → Option (Nat × Nat)
  | .text p _ _ => some p
  | .truncText p _ _ => some p
  | _ => none

/-- String drawn by a text-drawing operation. -/
def DrawOp.drawnString : DrawOp → Option String
  | .text _ s _ => some s
  | .truncText _ s _ => some s
  | _ => none

/-- Snapshot value lookup `info[k]` for keys the source reads
unconditionally; an absent key is modelled as the empty string. -/
def getInfo (info : String → Option String) (k : String) : String :=
  (info k).getD ""

/-- Rendering of one DEFAULT-layout field (kodi_panel.py lines
437-478): special-cased `codec` (table lookup, silently skipped when
the codec is not a table key), special-cased `artist`
(artist-or-composer fallback, composer in parentheses), and the
generic presence/non-emptiness-guarded branch with optional label and
optional truncation. -/
def render_field (info : String → Option String) (f : FieldSpec) : List DrawOp :=
  if f.name = "codec" then
    match codec_lookup (getInfo info "MusicPlayer.Codec") with
    | some short => [.text f.pos short f.fill]
    | none => []
  else if f.name = "artist" then
    if getInfo info "MusicPlayer.Artist" ≠ "" then
      [.truncText f.pos (getInfo info "MusicPlayer.Artist") f.fill]
    else if getInfo info "MusicPlayer.Property(Role.Composer)" ≠ "" then
      [.truncText f.pos
        ("(" ++ getInfo info "MusicPlayer.Property(Role.Composer)" ++ ")") f.fill]
    else []
  else
    if (info f.name).isSome ∧ getInfo info f.name ≠ "" then
      (match f.label with
       | some lbl => [.text lbl.2.1 lbl.1 lbl.2.2]
       | none => []) ++
      (if f.trunc then [.truncText f.pos (getInfo info f.name) f.fill]
       else [.text f.pos (getInfo info f.name) f.fill])
    else []

/-! ### Audio screens and the display update cycle -/

/-- Record of one `get_artwork` invocation: the `last_image_path` and
`prev_image` cache slots as seen at the call, and the requested
thumbnail size. -/
structure ArtCall where
  last_path : Option String
  prev : Option Img
  size : Nat
deriving DecidableEq

/-- Shallow embedding of `audio_screens` (kodi_panel.py lines 407-504)
for the three display modes.  Returns the drawing operations, the new
`last_image_path` and `last_thumb` globals, and the `get_artwork`
invocation record; `none` propagates an uncaught exception from
`get_artwork`. -/
def audio_screens (env : ArtEnv) (info : String → Option String) (prog : ℚ)
    (dmode : ADisplay) (last_ip : Option String) (last_th : Option Img) :
    Option (List DrawOp × Option String × Option Img × List ArtCall) :=
  let cover := getInfo info "MusicPlayer.Cover"
  match dmode with
  | .DEFAULT =>
      match get_artwork env last_ip cover last_th 140 with
      | none => none
      | some (ret, last', _) =>
          let artOps : List DrawOp :=
            match ret with
            | some img => [.pasteImage img 5 5]
            | none => []
          let progOps : List DrawOp :=
            if prog ≠ -1 then
              if (getInfo info "MusicPlayer.Time").data.count ':' = 2 then
                [.progBar 150 7 164 8 prog false]
              else
                [.progBar 150 7 104 8 prog false]
            else []
          let fieldOps := (default_fields.map (render_field info)).flatten
          some (artOps ++ progOps ++ fieldOps, last', ret, [⟨last_ip, last_th, 140⟩])
  | .FULLSCREEN =>
      match get_artwork env last_ip cover last_th (240 - 5) with
      | none => none
      | some (ret, last', _) =>
          let artOps : List DrawOp :=
            match ret with
            | some img =>
                let d := img_dims env img
                [.pasteImage img ((320 - (d.1 : Int)) / 2) ((240 - (d.2 : Int)) / 2)]
            | none => []
          some (artOps, last', ret, [⟨last_ip, last_th, 240 - 5⟩])
  | .FULL_PROG =>
      match get_artwork env last_ip cover last_th (240 - 5) with
      | none => none
      | some (ret, last', _) =>
          let artOps : List DrawOp :=
            match ret with
            | some img =>
                let d := img_dims env img
                [.pasteImage img ((320 - (d.1 : Int)) / 2) ((240 - (d.2 : Int)) / 2)]
            | none => []
          let progOps : List DrawOp :=
            if prog ≠ -1 then [.progBar (320 - 12) 1 10 (240 - 4) prog true]
            else []
          some (artOps ++ progOps, last', ret, [⟨last_ip, last_th, 240 - 5⟩])

/-- Active-player type reported by `Player.GetActivePlayers`. -/
inductive PlayerType where
  | audio
  | video
  | picture
deriving DecidableEq

/-- Module-global state read and written by `update_display`. -/
structure PanelState where
  screen_press : Bool
  screen_on : Bool
  audio_dmode : ADisplay
  last_image_path : Option String
  last_thumb : Option Img
deriving DecidableEq

/-- Per-cycle external inputs of `update_display`: the active-players
response, the info-label snapshot, the separately fetched percentage
property (absent key modelled as `none`), the artwork environment,
and whether the status-screen wake time has expired. -/
structure UpdateEnv where
  players : List PlayerType
  info : String → Option String
  percentage : Option ℚ
  art : ArtEnv
  off_time_reached : Bool

/-- Shallow embedding of one `update_display` cycle (kodi_panel.py
lines 514-634), restricted to the state transitions and the artwork
and drawing effects the claims are about (the status-screen text of
the idle branch and the final blit are not modelled as ops).  Returns
the new state, the `get_artwork` invocation records, and the audio
drawing operations; `none` propagates an uncaught exception. -/
def update_display (env : UpdateEnv) (st0 : PanelState) :
    Option (PanelState × List ArtCall × List DrawOp) :=
  let st := if st0.screen_on ∧ env.off_time_reached then
      { st0 with screen_on := false }
    else st0
  if env.players = [] ∨ env.players.head? ≠ some PlayerType.audio then
    let st := { st with last_image_path := none, last_thumb := none }
    let st := if st.screen_press then
        { st with screen_press := false, screen_on := true }
      else st
    some (st, [], [])
  else
    let st := if st.screen_press then
        { st with screen_press := false,
                  audio_dmode := st.audio_dmode.next,
                  last_image_path := none, last_thumb := none }
      else st
    let prog : ℚ :=
      match env.percentage with
      | some p => p / 100
      | none => -1
    match audio_screens env.art env.info prog st.audio_dmode
        st.last_image_path st.last_thumb with
    | none => none
    | some (ops, last', thumb', calls) =>
        some ({ st with last_image_path := last', last_thumb := thumb' }, calls, ops)

/-! ## Theorems -/

/-- Helper: once both inputs pass the emptiness and colon-count
checks, `calc_progress_custom` is parsing followed by the value
logic. -/
theorem calc_progress_custom_eq_of_shape (e t L : String)
    (he : e ≠ "") (ht : t ≠ "")
    (hc1 : 1 ≤ e.data.count ':') (hc2 : e.data.count ':' ≤ 2)
    (hc3 : 1 ≤ t.data.count ':') (hc4 : t.data.count ':' ≤ 2) :
    calc_progress_custom e t L =
      match parse_base60 e, parse_base60 t with
      | some cur, some total => some (calc_progress_values_logic cur total L)
      | _, _ => none := by
  unfold calc_progress_custom
  rw [if_neg (by tauto), if_neg (by tauto)]

/-- C6: the audio display-mode `next` operation is total and cyclic:
each mode steps to the following member of the enumeration, the last
wraps to the first, and three applications of `next` are the
identity on every mode. -/
theorem adisplay_next_cyclic :
    ADisplay.next .DEFAULT = .FULLSCREEN ∧
    ADisplay.next .FULLSCREEN = .FULL_PROG ∧
    ADisplay.next .FULL_PROG = .DEFAULT ∧
    ADisplay.members.length = 3 ∧
    ∀ m : ADisplay, m.next.next.next = m := by
  refine ⟨by decide, by decide, by decide, by decide, ?_⟩
  intro m
  cases m <;> decide

/-- C2 counterexample: the pair ("45", "100") — both strings
non-empty, each a single numeric component, within the claim's
"1–3 colon-separated numeric components" shape — is rejected with the
hide sentinel -1 instead of being accepted and parsed (45/100 ≠ -1),
because the source requires a colon count between 1 and 2
(i.e. 2–3 components). -/
theorem calc_progress_single_component_cex :
    calc_progress_custom "45" "100" "music" = some (-1) ∧ (45 : ℚ) / 100 ≠ -1 := by
  exact ⟨by decide, by norm_num⟩

/-- C2 (amended): `calc_progress_custom` accepts exactly the input
pairs where both strings are non-empty with 2–3 colon-separated
components (colon count between 1 and 2); every pair with an empty
string or a colon count outside 1–2 returns the hide sentinel -1,
and every pair inside that shape proceeds to base-60 parsing and the
value logic. -/
theorem calc_progress_shape (e t L : String) :
    ((e = "" ∨ t = "" ∨
      ¬(1 ≤ e.data.count ':' ∧ e.data.count ':' ≤ 2) ∨
      ¬(1 ≤ t.data.count ':' ∧ t.data.count ':' ≤ 2)) →
        calc_progress_custom e t L = some (-1)) ∧
    (e ≠ "" → t ≠ "" →
     1 ≤ e.data.count ':' → e.data.count ':' ≤ 2 →
     1 ≤ t.data.count ':' → t.data.count ':' ≤ 2 →
        calc_progress_custom e t L =
          match parse_base60 e, parse_base60 t with
          | some cur, some total => some (calc_progress_values_logic cur total L)
          | _, _ => none) := by
  constructor
  · intro h
    unfold calc_progress_custom
    by_cases he : e = "" ∨ t = ""
    · rw [if_pos he]
    · rw [if_neg he, if_pos (by tauto)]
  · intro he ht hc1 hc2 hc3 hc4
    exact calc_progress_custom_eq_of_shape e t L he ht hc1 hc2 hc3 hc4

/-- Witness for C2's theorem at concrete inputs: an empty elapsed
string is rejected with -1, and the well-shaped pair ("1:30", "3:00")
is accepted and parsed. -/
theorem calc_progress_shape_witness :
    (("" : String) = "" ∨ ("12:00" : String) = "" ∨
      ¬(1 ≤ ("" : String).data.count ':' ∧ ("" : String).data.count ':' ≤ 2) ∨
      ¬(1 ≤ ("12:00" : String).data.count ':' ∧ ("12:00" : String).data.count ':' ≤ 2)) ∧
    calc_progress_custom "" "12:00" "music" = some (-1) := by
  exact ⟨Or.inl rfl, (calc_progress_shape "" "12:00" "music").1 (Or.inl rfl)⟩

/-- C3 counterexample: the claim's example
`calc_progress("01:30","03:00",layout) = 0.5` is quantified over every
layout name, but for layout "V_PVR" the offset subtraction
(elapsed - 600, total - 1200) makes both values negative, so the
function returns the hide sentinel -1, not 0.5. -/
theorem calc_progress_pvr_cex :
    calc_progress_custom "01:30" "03:00" "V_PVR" = some (-1) ∧ (-1 : ℚ) ≠ 1 / 2 := by
  exact ⟨by decide, by norm_num⟩

/-- C3 (amended): for every well-formed elapsed/total pair and every
layout name, after the layout-specific offset subtraction (600/1200
for "V_PVR", none otherwise): a negative value or total ≤ 0 yields the
hide sentinel, elapsed ≥ total yields exactly 1, and otherwise
elapsed/total in [0,1) is returned.  The spec's concrete examples hold
for every layout WITHOUT an offset (layout ≠ "V_PVR"). -/
theorem calc_progress_values (e t L : String) (cur total : Int)
    (hpe : parse_base60 e = some cur) (hpt : parse_base60 t = some total)
    (he : e ≠ "") (ht : t ≠ "")
    (hc1 : 1 ≤ e.data.count ':') (hc2 : e.data.count ':' ≤ 2)
    (hc3 : 1 ≤ t.data.count ':') (hc4 : t.data.count ':' ≤ 2) :
    (let cur' := if L = "V_PVR" then cur - 600 else cur
     let total' := if L = "V_PVR" then total - 1200 else total
     (cur' < 0 ∨ total' ≤ 0 → calc_progress_custom e t L = some (-1)) ∧
     (0 ≤ cur' → 0 < total' → total' ≤ cur' → calc_progress_custom e t L = some 1) ∧
     (0 ≤ cur' → 0 < total' → cur' < total' →
        calc_progress_custom e t L = some ((cur' : ℚ) / (total' : ℚ)) ∧
        0 ≤ (cur' : ℚ) / (total' : ℚ) ∧ (cur' : ℚ) / (total' : ℚ) < 1)) ∧
    (L ≠ "V_PVR" →
       calc_progress_custom "01:30" "03:00" L = some (1 / 2) ∧
       calc_progress_custom "00:00" "00:00" L = some (-1) ∧
       calc_progress_custom "" "12:00" L = some (-1) ∧
       calc_progress_custom "05:00" "03:00" L = some 1) := by
  have hbase := calc_progress_custom_eq_of_shape e t L he ht hc1 hc2 hc3 hc4
  rw [hpe, hpt] at hbase
  constructor
  · intro cur' total'
    have hlogic : calc_progress_custom e t L =
        some (if 0 ≤ cur' ∧ 0 < total' then
                if total' ≤ cur' then 1 else (cur' : ℚ) / (total' : ℚ)
              else -1) := by
      rw [hbase]
      rfl
    refine ⟨?_, ?_, ?_⟩
    · intro h
      rw [hlogic, if_neg (by omega)]
    · intro h1 h2 h3
      rw [hlogic, if_pos ⟨h1, h2⟩, if_pos h3]
    · intro h1 h2 h3
      have htq : (0 : ℚ) < (total' : ℚ) := by exact_mod_cast h2
      have hcq : (0 : ℚ) ≤ (cur' : ℚ) := by exact_mod_cast h1
      have hlt : (cur' : ℚ) < (total' : ℚ) := by exact_mod_cast h3
      refine ⟨?_, div_nonneg hcq htq.le, (div_lt_one htq).mpr hlt⟩
      rw [hlogic, if_pos ⟨h1, h2⟩, if_neg (by omega)]
  · intro hL
    have p1 : parse_base60 "01:30" = some 90 := rfl
    have p2 : parse_base60 "03:00" = some 180 := rfl
    have p3 : parse_base60 "00:00" = some 0 := rfl
    have p4 : parse_base60 "05:00" = some 300 := rfl
    refine ⟨?_, ?_, ?_, ?_⟩
    · rw [calc_progress_custom_eq_of_shape _ _ _ (by decide) (by decide)
          (by decide) (by decide) (by decide) (by decide), p1, p2]
      simp [calc_progress_values_logic, hL]
      norm_num
    · rw [calc_progress_custom_eq_of_shape _ _ _ (by decide) (by decide)
          (by decide) (by decide) (by decide) (by decide), p3]
      simp [calc_progress_values_logic, hL]
    · unfold calc_progress_custom
      rw [if_pos (Or.inl rfl)]
    · rw [calc_progress_custom_eq_of_shape _ _ _ (by decide) (by decide)
          (by decide) (by decide) (by decide) (by decide), p4, p2]
      simp [calc_progress_values_logic, hL]

/-- Witness for C3's theorem: ("01:30", "03:00") parses to 90/180
seconds, and for the offset-free layout "music" the result is 0.5. -/
theorem calc_progress_values_witness :
    parse_base60 "01:30" = some 90 ∧ parse_base60 "03:00" = some 180 ∧
    calc_progress_custom "01:30" "03:00" "music" = some (1 / 2) := by
  refine ⟨rfl, rfl, ?_⟩
  exact ((calc_progress_values "01:30" "03:00" "music" 90 180 rfl rfl
    (by decide) (by decide) (by decide) (by decide) (by decide) (by decide)).2
    (by decide)).1

/-- Helper: the fraction actually used for the foreground rectangle is
strictly positive and at most 1. -/
theorem clamp_progress_mem (progress : ℚ) :
    0 < clamp_progress progress ∧ clamp_progress progress ≤ 1 := by
  unfold clamp_progress
  by_cases h : progress ≤ 0
  · rw [if_pos h]
    norm_num
  · rw [if_neg h]
    push_neg at h
    by_cases h1 : 1 < progress
    · rw [if_pos h1]
      norm_num
    · rw [if_neg h1]
      push_neg at h1
      exact ⟨h, h1⟩

/-- C4 counterexample: a fraction strictly between 0 and 0.01 is NOT
clamped up to 0.01 — `progress_bar` uses it as-is, so the rendering at
fraction 1/200 differs from the rendering at the claimed clamp value
1/100 (the foreground extends to width·(1/200), not width·(1/100)). -/
theorem progress_bar_clamp_cex :
    progress_bar 0 0 100 8 (1 / 200) false ≠ progress_bar 0 0 100 8 (1 / 100) false ∧
    progress_bar 0 0 100 8 (1 / 200) false = [⟨0, 0, 100, 8⟩, ⟨0, 0, 1 / 2, 8⟩] := by
  constructor
  · norm_num [progress_bar, clamp_progress]
  · norm_num [progress_bar, clamp_progress]

/-- C4 (amended): `progress_bar` always draws the full background
track first, then the foreground with the fraction mapped by: ≤ 0 ↦
0.01 and > 1 ↦ 1, all other values unchanged (so the used fraction
lies in (0, 1], and values in (0, 0.01) pass through rather than being
clamped to 0.01).  A fraction ≤ 0 still renders a non-zero sliver, a
fraction > 1 renders identically to 1, a horizontal bar fills from the
left to width·fraction, a vertical bar fills from the bottom upward by
height·fraction, and the foreground never extends beyond the
background track. -/
theorem progress_bar_spec (x y w h progress : ℚ) (v : Bool)
    (hw : 0 < w) (hh : 0 < h) :
    (∃ fg : Rect,
       progress_bar x y w h progress v = [⟨x, y, x + w, y + h⟩, fg] ∧
       x ≤ fg.x1 ∧ fg.x1 < fg.x2 ∧ fg.x2 ≤ x + w ∧
       y ≤ fg.y1 ∧ fg.y1 < fg.y2 ∧ fg.y2 ≤ y + h) ∧
    (progress ≤ 0 → progress_bar x y w h progress v = progress_bar x y w h (1 / 100) v) ∧
    (1 < progress → progress_bar x y w h progress v = progress_bar x y w h 1 v) := by
  obtain ⟨hp0, hp1⟩ := clamp_progress_mem progress
  refine ⟨?_, ?_, ?_⟩
  · set p := clamp_progress progress with hp
    have hwp : 0 < w * p := mul_pos hw hp0
    have hwp1 : w * p ≤ w := by nlinarith
    have hhp : 0 < h * p := mul_pos hh hp0
    have hhp1 : h * p ≤ h := by nlinarith
    cases v with
    | false =>
        refine ⟨⟨x, y, x + w * p, y + h⟩, rfl, ?_, ?_, ?_, ?_, ?_, ?_⟩ <;>
          dsimp only <;> linarith
    | true =>
        refine ⟨⟨x, y + h - h * p, x + w, y + h⟩, rfl, ?_, ?_, ?_, ?_, ?_, ?_⟩ <;>
          dsimp only <;> linarith
  · intro hle
    have h1 : clamp_progress progress = 1 / 100 := by
      unfold clamp_progress
      rw [if_pos hle]
      norm_num
    have h2 : clamp_progress (1 / 100 : ℚ) = 1 / 100 := by
      unfold clamp_progress
      norm_num
    unfold progress_bar
    rw [h1, h2]
  · intro hgt
    have h1 : clamp_progress progress = 1 := by
      unfold clamp_progress
      rw [if_neg (show ¬ progress ≤ 0 by linarith), if_pos hgt]
    have h2 : clamp_progress (1 : ℚ) = 1 := by
      unfold clamp_progress
      norm_num
    unfold progress_bar
    rw [h1, h2]

/-- Witness for C4's theorem: at width 100, height 8 and fraction 0,
the drawing at fraction 0 equals the drawing at the sliver fraction
1/100. -/
theorem progress_bar_spec_witness :
    (0 : ℚ) < 100 ∧ (0 : ℚ) < 8 ∧
    progress_bar 0 0 100 8 0 false = progress_bar 0 0 100 8 (1 / 100) false := by
  exact ⟨by decide, by decide,
    (progress_bar_spec 0 0 100 8 0 false (by decide) (by decide)).2.1 (by decide)⟩

/-- C5: evaluation of the resize arithmetic of `get_artwork` at the
failing input.  The source computes
`new_width = int(orig_h * (thumb_size / orig_h))`, which equals
`thumb_size` for every image — the original WIDTH never enters, so
aspect ratio is not preserved (the code's own comment says "resize
while maintaining aspect ratio") and the `new_width > thumb_size` crop
branch is unreachable.  At a 280×140 cover with target 140 the code
resizes to 140×140 (distorting 2:1 to 1:1) where the documented intent
is 280×140. -/
theorem resize_aspect_bug :
    (∀ orig_w orig_h thumb_size : Nat, 0 < orig_h →
       (resize_target (orig_w, orig_h) thumb_size).1 = thumb_size) ∧
    resize_target (280, 140) 140 = (140, 140) ∧
    resize_target_spec (280, 140) 140 = (280, 140) := by
  refine ⟨?_, ?_, ?_⟩
  · intro orig_w orig_h thumb_size h
    unfold resize_target
    have hne : ((orig_h : ℚ)) ≠ 0 := by
      exact_mod_cast Nat.pos_iff_ne_zero.mp h
    have : (orig_h : ℚ) * ((thumb_size : ℚ) / (orig_h : ℚ)) = (thumb_size : ℚ) := by
      field_simp
    simp only [this, Int.floor_natCast, Int.toNat_natCast]
  · norm_num [resize_target]
    decide
  · norm_num [resize_target_spec]
    decide

/-- Witness for C5's theorem: at the failing 280×140 input the
computed resize width is the target size 140, not the
aspect-preserving 280. -/
theorem resize_aspect_bug_witness :
    0 < 140 ∧ (resize_target (280, 140) 140).1 = 140 := by
  exact ⟨by decide, resize_aspect_bug.1 280 140 140 (by decide)⟩

/-- Helper: when the text already fits, the truncation loop exits
immediately without setting the truncating flag. -/
theorem truncRev_fits (ts : List Char → Nat) (r : List Char)
    (h : ts r.reverse ≤ maxTextWidth) :
    truncRev ts r = (r.reverse, false) := by
  cases r with
  | nil =>
      simp only [List.reverse_nil] at h
      simp [truncRev, h]
  | cons c rest =>
      rw [List.reverse_cons] at h
      simp [truncRev, h]

/-- Helper: full characterisation of the truncation loop on the
reversed character list.  Dropping `j` characters from the front of
the reversed list is dropping the last `j` characters of the text;
the loop stops at the first such suffix that fits, every longer one
measured on the way exceeded the bound, and the truncating flag is
set exactly when the original text did not fit. -/
theorem truncRev_main (ts : List Char → Nat) (h0 : ts [] ≤ maxTextWidth) :
    ∀ r : List Char, ∃ j, j ≤ r.length ∧
      (truncRev ts r).1 = (r.drop j).reverse ∧
      ts ((r.drop j).reverse) ≤ maxTextWidth ∧
      (∀ i, i < j → maxTextWidth < ts ((r.drop i).reverse)) ∧
      ((truncRev ts r).2 = true ↔ maxTextWidth < ts r.reverse) := by
  intro r
  induction r with
  | nil =>
      refine ⟨0, Nat.le_refl _, ?_, ?_, ?_, ?_⟩
      · simp [truncRev, h0]
      · simpa using h0
      · intro i hi
        omega
      · simp [truncRev, h0]
  | cons c rest ih =>
      by_cases hfit : ts ((c :: rest).reverse) ≤ maxTextWidth
      · have hfit' : ts (rest.reverse ++ [c]) ≤ maxTextWidth := by
          rw [← List.reverse_cons]
          exact hfit
        refine ⟨0, Nat.zero_le _, ?_, ?_, ?_, ?_⟩
        · simp [truncRev, hfit']
        · simpa using hfit
        · intro i hi
          omega
        · simp [truncRev, hfit']
      · have hfit' : ¬ ts (rest.reverse ++ [c]) ≤ maxTextWidth := by
          rw [← List.reverse_cons]
          exact hfit
        obtain ⟨j, hj, h1, h2, h3, h4⟩ := ih
        refine ⟨j + 1, by simpa using Nat.succ_le_succ hj, ?_, ?_, ?_, ?_⟩
        · simpa [truncRev, hfit'] using h1
        · simpa using h2
        · intro i hi
          cases i with
          | zero =>
              simpa using Nat.lt_of_not_le hfit
          | succ i' =>
              simpa using h3 i' (by omega)
        · simp [truncRev, hfit']
          exact Nat.lt_of_not_le hfit'

/-- C1 counterexample: with a width measure of 30 per character, the
11-character input "abcdefghijk" (width 330 > 300) is truncated to 10
characters (width 300, fits), and the ellipsis is appended AFTER the
width check — so the final drawn string "abcdefghij…" is again 11
characters, of rendered width 330, exceeding the margin-constrained
bound of 300.  The claim that "the rendered width of the final drawn
string never exceeds the margin-constrained bound" is false. -/
theorem truncate_text_width_cex :
    truncate_text (fun cs => 30 * cs.length) "abcdefghijk".toList
      = "abcdefghij…".toList ∧
    maxTextWidth <
      (fun cs : List Char => 30 * cs.length)
        (truncate_text (fun cs => 30 * cs.length) "abcdefghijk".toList) := by
  exact ⟨by decide, by decide⟩

/-- C1 (amended): for every width measure under which the empty
string fits (the Python loop would not terminate otherwise): if the
measured width of the input is at most the panel width minus the fixed
20-pixel margin, `truncate_text` draws the input unchanged with no
ellipsis; otherwise it drops trailing characters one at a time until
the remainder fits and appends a single ellipsis glyph, and the width
of the RETAINED PREFIX (the drawn string without the appended
ellipsis) never exceeds the margin-constrained bound — the full drawn
string including the ellipsis may exceed it, since the ellipsis is
appended after the width check. -/
theorem truncate_text_spec (ts : List Char → Nat) (text : List Char)
    (h0 : ts [] ≤ maxTextWidth) :
    (ts text ≤ maxTextWidth → truncate_text ts text = text) ∧
    (maxTextWidth < ts text →
       ∃ k, k ≤ text.length ∧
         truncate_text ts text = text.take k ++ ['…'] ∧
         ts (text.take k) ≤ maxTextWidth ∧
         ∀ m, k < m → m ≤ text.length → maxTextWidth < ts (text.take m)) := by
  constructor
  · intro hfit
    have h : ts text.reverse.reverse ≤ maxTextWidth := by
      simpa using hfit
    unfold truncate_text
    dsimp only
    rw [truncRev_fits ts text.reverse h]
    simp
  · intro hbig
    obtain ⟨j, hj, h1, h2, h3, h4⟩ := truncRev_main ts h0 text.reverse
    rw [List.length_reverse] at hj
    have hflag : (truncRev ts text.reverse).2 = true := by
      rw [h4, List.reverse_reverse]
      exact hbig
    have hdrop : ∀ i, (text.reverse.drop i).reverse = text.take (text.length - i) := by
      intro i
      rw [List.drop_reverse, List.reverse_reverse]
    refine ⟨text.length - j, Nat.sub_le _ _, ?_, ?_, ?_⟩
    · unfold truncate_text
      dsimp only
      rw [hflag, if_pos rfl, h1, hdrop]
    · rw [← hdrop]
      exact h2
    · intro m hm hmle
      have hi : text.length - m < j := by omega
      have heq : text.take m = (text.reverse.drop (text.length - m)).reverse := by
        rw [hdrop]
        congr 1
        omega
      rw [heq]
      exact h3 _ hi

/-- Witness for C1's theorem: with a width of 10 per character,
"hello" (width 50) fits within the bound of 300 and is drawn
unchanged. -/
theorem truncate_text_spec_witness :
    (fun cs : List Char => 10 * cs.length) [] ≤ maxTextWidth ∧
    truncate_text (fun cs => 10 * cs.length) "hello".toList = "hello".toList := by
  exact ⟨by decide,
    (truncate_text_spec (fun cs => 10 * cs.length) "hello".toList (by decide)).1
      (by decide)⟩

/-- C7: when the snapshot reports the same non-empty, non-default,
non-AirPlay cover path twice, and the image returned by the first
(cold, successful) call is passed back in as `prev_image`, the second
call hits the single-slot cache: it performs no underlying fetch
(exactly one fetch across the two resolutions) and returns
`prev_image` unchanged. -/
theorem get_artwork_cache_hit (env : ArtEnv) (cover : String)
    (prev0 : Option Img) (thumb_size : Nat)
    (h1 : cover ≠ "") (h2 : cover ≠ "DefaultAlbumCover.png")
    (h3 : special_match cover = none)
    (h4 : str_starts_with cover "http://" = true ∨ env.prepareOK cover = true)
    (h5 : env.status200 cover = true) (h6 : env.decodeOK cover = true) :
    ∃ img1,
      get_artwork env none cover prev0 thumb_size = some (some img1, some cover, 1) ∧
      get_artwork env (some cover) cover (some img1) thumb_size =
        some (some img1, some cover, 0) := by
  refine ⟨do_resize env (.fetched cover) thumb_size, ?_, ?_⟩
  · rcases h4 with h4 | h4 <;>
      simp [get_artwork, h1, h2, h3, h4, h5, h6]
  · simp [get_artwork, h1, h2, h3]

/-- Witness for C7's theorem: a concrete environment and an http cover
path on which the first call fetches once and the second call is a
pure cache hit. -/
theorem get_artwork_cache_hit_witness :
    ("http://host/a.jpg" : String) ≠ "" ∧
    special_match "http://host/a.jpg" = none ∧
    ∃ img1,
      get_artwork ⟨fun _ => true, fun _ => true, fun _ => true, fun _ => false,
          fun _ => (100, 100)⟩ none "http://host/a.jpg" none 140 =
        some (some img1, some "http://host/a.jpg", 1) ∧
      get_artwork ⟨fun _ => true, fun _ => true, fun _ => true, fun _ => false,
          fun _ => (100, 100)⟩ (some "http://host/a.jpg") "http://host/a.jpg"
          (some img1) 140 =
        some (some img1, some "http://host/a.jpg", 0) := by
  exact ⟨by decide, by decide,
    get_artwork_cache_hit _ "http://host/a.jpg" none 140 (by decide) (by decide)
      (by decide) (Or.inl (by decide)) rfl rfl⟩

/-- C9: when the fetched cover-art bytes fail to decode, `get_artwork`
raises no exception, returns the static default thumbnail image, and
still records the failing path in `last_image_path`; an immediately
following call reporting the same path (with the returned image passed
as `prev_image`) is a cache hit performing no new fetch or decode
attempt. -/
theorem get_artwork_decode_fallback (env : ArtEnv) (cover : String)
    (prev0 : Option Img) (thumb_size : Nat)
    (h1 : cover ≠ "") (h2 : cover ≠ "DefaultAlbumCover.png")
    (h3 : special_match cover = none)
    (h4 : str_starts_with cover "http://" = true ∨ env.prepareOK cover = true)
    (h5 : env.status200 cover = true) (h6 : env.decodeOK cover = false) :
    get_artwork env none cover prev0 thumb_size =
      some (some (.opened default_thumb), some cover, 1) ∧
    get_artwork env (some cover) cover (some (.opened default_thumb)) thumb_size =
      some (some (.opened default_thumb), some cover, 0) := by
  constructor
  · rcases h4 with h4 | h4 <;>
      simp [get_artwork, h1, h2, h3, h4, h5, h6]
  · simp [get_artwork, h1, h2, h3]

/-- Witness for C9's theorem: a concrete environment whose decode
always fails; the first call falls back to the default thumbnail with
the failing path cached, and the second call is a pure cache hit. -/
theorem get_artwork_decode_fallback_witness :
    ("http://host/bad.jpg" : String) ≠ "" ∧
    get_artwork ⟨fun _ => true, fun _ => false, fun _ => true, fun _ => false,
        fun _ => (100, 100)⟩ none "http://host/bad.jpg" none 140 =
      some (some (.opened default_thumb), some "http://host/bad.jpg", 1) ∧
    get_artwork ⟨fun _ => true, fun _ => false, fun _ => true, fun _ => false,
        fun _ => (100, 100)⟩ (some "http://host/bad.jpg") "http://host/bad.jpg"
        (some (.opened default_thumb)) 140 =
      some (some (.opened default_thumb), some "http://host/bad.jpg", 0) := by
  refine ⟨by decide, ?_, ?_⟩
  · exact (get_artwork_decode_fallback _ "http://host/bad.jpg" none 140 (by decide)
      (by decide) (by decide) (Or.inl (by decide)) rfl rfl).1
  · exact (get_artwork_decode_fallback _ "http://host/bad.jpg" none 140 (by decide)
      (by decide) (by decide) (Or.inl (by decide)) rfl rfl).2

/-- Helper: every `get_artwork` invocation recorded by
`audio_screens` sees exactly the `last_image_path` and `last_thumb`
values that were passed into `audio_screens`. -/
theorem audio_screens_calls (env : ArtEnv) (info : String → Option String)
    (prog : ℚ) (d : ADisplay) (lip : Option String) (lth : Option Img)
    (out : List DrawOp × Option String × Option Img × List ArtCall)
    (h : audio_screens env info prog d lip lth = some out) :
    ∀ c ∈ out.2.2.2, c.last_path = lip ∧ c.prev = lth := by
  cases d with
  | DEFAULT =>
      cases hga : get_artwork env lip (getInfo info "MusicPlayer.Cover") lth 140 with
      | none => simp [audio_screens, hga] at h
      | some r =>
          obtain ⟨ret, last', n⟩ := r
          simp only [audio_screens, hga, Option.some.injEq] at h
          subst h
          intro c hc
          simp at hc
          subst hc
          exact ⟨rfl, rfl⟩
  | FULLSCREEN =>
      cases hga : get_artwork env lip (getInfo info "MusicPlayer.Cover") lth (240 - 5) with
      | none => simp [audio_screens, hga] at h
      | some r =>
          obtain ⟨ret, last', n⟩ := r
          simp only [audio_screens, hga, Option.some.injEq] at h
          subst h
          intro c hc
          simp at hc
          subst hc
          exact ⟨rfl, rfl⟩
  | FULL_PROG =>
      cases hga : get_artwork env lip (getInfo info "MusicPlayer.Cover") lth (240 - 5) with
      | none => simp [audio_screens, hga] at h
      | some r =>
          obtain ⟨ret, last', n⟩ := r
          simp only [audio_screens, hga, Option.some.injEq] at h
          subst h
          intro c hc
          simp at hc
          subst hc
          exact ⟨rfl, rfl⟩

/-- C8: in every `update_display` cycle, when the active player is
absent or non-audio both cache slots end the cycle reset to `none`
with no artwork resolution performed; and when audio is active and a
screen press is observed, the display mode advances and every
`get_artwork` invocation of the cycle sees both cache slots already
reset to `none`, forcing a re-fetch. -/
theorem update_display_cache_reset (env : UpdateEnv) (st : PanelState) :
    ((env.players = [] ∨ env.players.head? ≠ some PlayerType.audio) →
       ∃ st', update_display env st = some (st', [], []) ∧
         st'.last_image_path = none ∧ st'.last_thumb = none) ∧
    (env.players.head? = some PlayerType.audio → st.screen_press = true →
       ∀ out, update_display env st = some out →
         out.1.audio_dmode = st.audio_dmode.next ∧
         ∀ c ∈ out.2.1, c.last_path = none ∧ c.prev = none) := by
  constructor
  · intro h
    unfold update_display
    rw [if_pos h]
    by_cases hso : st.screen_on ∧ env.off_time_reached
    · rw [if_pos hso]
      dsimp only
      by_cases hsp : st.screen_press
      · rw [if_pos hsp]
        exact ⟨_, rfl, rfl, rfl⟩
      · rw [if_neg hsp]
        exact ⟨_, rfl, rfl, rfl⟩
    · rw [if_neg hso]
      dsimp only
      by_cases hsp : st.screen_press
      · rw [if_pos hsp]
        exact ⟨_, rfl, rfl, rfl⟩
      · rw [if_neg hsp]
        exact ⟨_, rfl, rfl, rfl⟩
  · intro ha hp out hout
    have hcond : ¬ (env.players = [] ∨ env.players.head? ≠ some PlayerType.audio) := by
      rintro (h | h)
      · rw [h] at ha
        simp at ha
      · exact h ha
    unfold update_display at hout
    rw [if_neg hcond] at hout
    by_cases hso : st.screen_on ∧ env.off_time_reached
    · rw [if_pos hso] at hout
      dsimp only at hout
      rw [if_pos hp] at hout
      dsimp only at hout
      cases hAS : audio_screens env.art env.info
          (match env.percentage with
           | some p => p / 100
           | none => -1) st.audio_dmode.next none none with
      | none =>
          rw [hAS] at hout
          exact absurd hout (by simp)
      | some o =>
          obtain ⟨ops, last', thumb', calls⟩ := o
          rw [hAS] at hout
          simp only [Option.some.injEq] at hout
          subst hout
          refine ⟨rfl, ?_⟩
          intro c hc
          exact audio_screens_calls env.art env.info _ st.audio_dmode.next none none
            _ hAS c hc
    · rw [if_neg hso] at hout
      dsimp only at hout
      rw [if_pos hp] at hout
      dsimp only at hout
      cases hAS : audio_screens env.art env.info
          (match env.percentage with
           | some p => p / 100
           | none => -1) st.audio_dmode.next none none with
      | none =>
          rw [hAS] at hout
          exact absurd hout (by simp)
      | some o =>
          obtain ⟨ops, last', thumb', calls⟩ := o
          rw [hAS] at hout
          simp only [Option.some.injEq] at hout
          subst hout
          refine ⟨rfl, ?_⟩
          intro c hc
          exact audio_screens_calls env.art env.info _ st.audio_dmode.next none none
            _ hAS c hc

/-- Witness for C8's theorem: with no active player reported, a cycle
starting from a populated artwork cache ends with both cache slots
reset to `none` and no artwork resolution performed. -/
theorem update_display_cache_reset_witness :
    (([] : List PlayerType) = [] ∨
      ([] : List PlayerType).head? ≠ some PlayerType.audio) ∧
    ∃ st', update_display
        ⟨[], fun _ => none, none,
          ⟨fun _ => true, fun _ => true, fun _ => true, fun _ => false,
            fun _ => (10, 10)⟩, false⟩
        ⟨true, true, .DEFAULT, some "x", some (.opened "y")⟩ = some (st', [], []) ∧
      st'.last_image_path = none ∧ st'.last_thumb = none := by
  exact ⟨Or.inl rfl, (update_display_cache_reset _ _).1 (Or.inl rfl)⟩

/-- Helper: in the codec table, no short display name equals its own
key. -/
theorem codec_table_val_ne_key : ∀ p ∈ codec_name, p.2 ≠ p.1 := by decide

/-- Helper: a successful codec lookup never returns the raw codec
string itself. -/
theorem codec_lookup_ne_self (c short : String) (h : codec_lookup c = some short) :
    short ≠ c := by
  unfold codec_lookup at h
  cases hf : codec_name.find? (fun p => p.1 = c) with
  | none =>
      rw [hf] at h
      simp at h
  | some p =>
      rw [hf] at h
      simp only [Option.map_some', Option.some.injEq] at h
      subst h
      have hmem := List.mem_of_find?_eq_some hf
      have hpred := List.find?_some hf
      simp only [decide_eq_true_eq] at hpred
      have hne := codec_table_val_ne_key p hmem
      rw [hpred] at hne
      exact hne

/-- Helper: a DEFAULT-layout field other than the codec field, whose
own position and label position differ from `q`, contributes no text
operation at position `q`. -/
theorem render_field_filter_other (info : String → Option String) (f : FieldSpec)
    (q : Nat × Nat)
    (hname : f.name ≠ "codec") (hpos : f.pos ≠ q)
    (hlbl : ∀ lbl, f.label = some lbl → lbl.2.1 ≠ q) :
    (render_field info f).filter (fun op => op.textPos = some q) = [] := by
  unfold render_field
  rw [if_neg hname]
  by_cases hart : f.name = "artist"
  · rw [if_pos hart]
    by_cases h1 : getInfo info "MusicPlayer.Artist" ≠ ""
    · rw [if_pos h1]
      simp [DrawOp.textPos, hpos]
    · rw [if_neg h1]
      by_cases h2 : getInfo info "MusicPlayer.Property(Role.Composer)" ≠ ""
      · rw [if_pos h2]
        simp [DrawOp.textPos, hpos]
      · rw [if_neg h2]
        rfl
  · rw [if_neg hart]
    by_cases h1 : (info f.name).isSome ∧ getInfo info f.name ≠ ""
    · rw [if_pos h1, List.filter_append]
      have hL : ((match f.label with
          | some lbl => [DrawOp.text lbl.2.1 lbl.1 lbl.2.2]
          | none => []) : List DrawOp).filter (fun op => op.textPos = some q) = [] := by
        cases hl : f.label with
        | none => rfl
        | some lbl => simp [DrawOp.textPos, hlbl lbl hl]
      have hF : (if f.trunc then [DrawOp.truncText f.pos (getInfo info f.name) f.fill]
          else [DrawOp.text f.pos (getInfo info f.name) f.fill]).filter
            (fun op => op.textPos = some q) = [] := by
        cases f.trunc <;> simp [DrawOp.textPos, hpos]
      rw [hL, hF]
      rfl
    · rw [if_neg h1]
      rfl

/-- C10: in the DEFAULT audio layout, the text operations at the codec
field's position (230, 74) are exactly the table's short name when the
snapshot's MusicPlayer.Codec value is a key of `codec_name`, and
nothing otherwise (including the empty codec); the raw codec string is
never drawn there. -/
theorem codec_field_rendering (info : String → Option String) :
    ((default_fields.map (render_field info)).flatten.filter
        (fun op => op.textPos = some (230, 74)) =
      match codec_lookup (getInfo info "MusicPlayer.Codec") with
      | some short => [DrawOp.text (230, 74) short "white"]
      | none => []) ∧
    (∀ op ∈ (default_fields.map (render_field info)).flatten,
       op.textPos = some (230, 74) →
       op.drawnString ≠ some (getInfo info "MusicPlayer.Codec")) := by
  have hcodec : (render_field info
      ⟨"codec", (230, 74), "font_tiny", "white", none, false⟩).filter
        (fun op => op.textPos = some (230, 74)) =
      (match codec_lookup (getInfo info "MusicPlayer.Codec") with
       | some short => [DrawOp.text (230, 74) short "white"]
       | none => ([] : List DrawOp)) := by
    unfold render_field
    rw [if_pos rfl]
    cases codec_lookup (getInfo info "MusicPlayer.Codec") with
    | none => rfl
    | some short => simp [DrawOp.textPos]
  have hfil : (default_fields.map (render_field info)).flatten.filter
      (fun op => op.textPos = some (230, 74)) =
      match codec_lookup (getInfo info "MusicPlayer.Codec") with
      | some short => [DrawOp.text (230, 74) short "white"]
      | none => [] := by
    simp only [default_fields, List.map_cons, List.map_nil, List.flatten_cons,
      List.flatten_nil, List.append_nil, List.filter_append]
    rw [render_field_filter_other info _ _ (by decide) (by decide)
        (by intro lbl h; cases h)]
    rw [render_field_filter_other info _ _ (by decide) (by decide)
        (by intro lbl h; rw [Option.some_inj] at h; subst h; decide)]
    rw [render_field_filter_other info _ _ (by decide) (by decide)
        (by intro lbl h; cases h)]
    rw [hcodec]
    rw [render_field_filter_other info _ _ (by decide) (by decide)
        (by intro lbl h; cases h)]
    rw [render_field_filter_other info _ _ (by decide) (by decide)
        (by intro lbl h; cases h)]
    rw [render_field_filter_other info _ _ (by decide) (by decide)
        (by intro lbl h; cases h)]
    rw [render_field_filter_other info _ _ (by decide) (by decide)
        (by intro lbl h; cases h)]
    rw [render_field_filter_other info _ _ (by decide) (by decide)
        (by intro lbl h; cases h)]
    cases codec_lookup (getInfo info "MusicPlayer.Codec") <;> simp
  refine ⟨hfil, ?_⟩
  intro op hop hpos
  have hmem : op ∈ (default_fields.map (render_field info)).flatten.filter
      (fun op => op.textPos = some (230, 74)) := by
    rw [List.mem_filter]
    exact ⟨hop, by simp [hpos]⟩
  rw [hfil] at hmem
  cases hc : codec_lookup (getInfo info "MusicPlayer.Codec") with
  | none =>
      rw [hc] at hmem
      simp at hmem
  | some short =>
      rw [hc] at hmem
      simp only [List.mem_singleton] at hmem
      subst hmem
      simp only [DrawOp.drawnString, ne_eq, Option.some.injEq]
      exact codec_lookup_ne_self _ _ hc

/-- Witness for C10's theorem: with a snapshot reporting codec "flac",
the only text operation at the codec position draws the short name
"FLAC". -/
theorem codec_field_rendering_witness :
    ((default_fields.map (render_field
        (fun k => if k = "MusicPlayer.Codec" then some "flac" else none))).flatten.filter
      (fun op => op.textPos = some (230, 74))) =
      [DrawOp.text (230, 74) "FLAC" "white"] := by
  have h := (codec_field_rendering
    (fun k => if k = "MusicPlayer.Codec" then some "flac" else none)).1
  rw [h]
  rfl

end KodiPanel
